import Mathlib

/-!
Shallow embedding of the Podlink episode-link-generator worker
(`src/index.ts`) and verification of its specification claims.

The worker resolves a (show name, episode title) pair to a pod.link URL:
it searches the Apple Podcasts directory, fetches and parses the show's
RSS feed, matches the episode by title, and base64url-encodes the
episode GUID into the final link.  Network fetches are modelled by a
`FetchResult` value (HTTP failure status or parsed body), and the
JavaScript exception flow (`throw` / catch-all) by `Except`.
-/

namespace Podlink

/-! ### Text normalization (`normalizeText`, src/index.ts:46-48)

`text.toLowerCase().trim().replace(/\s+/g, " ")`, modelled on the list
of characters of the string.  Lowercasing is modelled character-wise by
`Char.toLower` (basic-latin lowercasing); the JavaScript whitespace
class `\s` (also used by `trim`) is modelled by `isJsWhitespace`. -/

/-- Whitespace class used by JavaScript `\s` and `String.prototype.trim`:
tab, LF, VT, FF, CR, space, NBSP, Ogham space mark, the U+2000..U+200A
range, LS, PS, NNBSP, MMSP, ideographic space and the BOM. -/
def isJsWhitespace (c : Char) : Bool :=
  let n := c.toNat
  n == 9 || n == 10 || n == 11 || n == 12 || n == 13 || n == 32 ||
  n == 160 || n == 5760 || (8192 ≤ n && n ≤ 8202) || n == 8232 ||
  n == 8233 || n == 8239 || n == 8287 || n == 12288 || n == 65279

/-- Model of `String.prototype.trim`: drop leading and trailing
whitespace from a character list. -/
def trimJs (l : List Char) : List Char :=
  ((l.dropWhile isJsWhitespace).reverse.dropWhile isJsWhitespace).reverse

/-- Model of `.replace(/\s+/g, " ")`: every maximal run of whitespace
characters is replaced by a single space. -/
def collapseWs : List Char → List Char
  | [] => []
  | [c] => if isJsWhitespace c then [' '] else [c]
  | c :: d :: rest =>
    if isJsWhitespace c then
      if isJsWhitespace d then collapseWs (d :: rest)
      else ' ' :: collapseWs (d :: rest)
    else c :: collapseWs (d :: rest)

/-- `normalizeText` (src/index.ts:46-48): lowercase, trim, collapse
whitespace runs to a single space. -/
def normalizeText (text : String) : String :=
  String.mk (collapseWs (trimJs (text.data.map Char.toLower)))

/-! ### Fuzzy matching (`fuzzyMatch`, src/index.ts:53-57) -/

/-- Model of JavaScript `s.includes(sub)`: `sub` occurs contiguously in
`s`. -/
def jsIncludes (s sub : String) : Bool :=
  decide (sub.data <:+: s.data)

/-- `fuzzyMatch` (src/index.ts:53-57): normalized equality or substring
containment in either direction. -/
def fuzzyMatch (a b : String) : Bool :=
  let normA := normalizeText a
  let normB := normalizeText b
  normA == normB || jsIncludes normA normB || jsIncludes normB normA

/-! ### GUID extraction (`extractGuid`, src/index.ts:62-67) -/

/-- An RSS `guid` value as produced by the XML parser: either a bare
string or an object carrying the string under the `#text` key. -/
inductive GuidValue where
  | str (s : String)
  | obj (text : String)
deriving DecidableEq

/-- `extractGuid` (src/index.ts:62-67): yield the plain string in
either representation. -/
def extractGuid : GuidValue → String
  | .str s => s
  | .obj t => t

/-! ### URL-safe base64 (`toUrlSafeBase64`, src/index.ts:73-84)

`TextEncoder().encode` produces the UTF-8 bytes; `btoa` on the
byte-per-code-unit binary string is standard base64; then
`.replace(/\+/g, "-").replace(/\//g, "_").replace(/=+$/, "")`. -/

/-- UTF-8 encoding of a single scalar value, as a list of byte values
(the semantics of `TextEncoder` on strings of Unicode scalars). -/
def utf8EncodeCharNat (c : Char) : List Nat :=
  let n := c.toNat
  if n < 128 then [n]
  else if n < 2048 then [192 + n / 64, 128 + n % 64]
  else if n < 65536 then [224 + n / 4096, 128 + n / 64 % 64, 128 + n % 64]
  else [240 + n / 262144, 128 + n / 4096 % 64, 128 + n / 64 % 64, 128 + n % 64]

/-- UTF-8 bytes of a string (`new TextEncoder().encode(input)`). -/
def utf8Bytes (s : String) : List Nat :=
  (s.data.map utf8EncodeCharNat).flatten

/-- The standard base64 alphabet, in index order. -/
def base64Chars : List Char :=
  "ABCDEFGHIJKLMNOPQRSTUVWXYZabcdefghijklmnopqrstuvwxyz0123456789+/".data

/-- Character of the base64 alphabet at a sextet value. -/
def b64char (n : Nat) : Char := base64Chars.getD n 'A'

/-- Standard base64 of a byte list, including `=` padding (the
semantics of `btoa` on a binary string of the given byte values). -/
def base64Encode : List Nat → List Char
  | [] => []
  | [b1] => [b64char (b1 / 4), b64char (b1 % 4 * 16), '=', '=']
  | [b1, b2] =>
    [b64char (b1 / 4), b64char (b1 % 4 * 16 + b2 / 16), b64char (b2 % 16 * 4), '=']
  | b1 :: b2 :: b3 :: rest =>
    b64char (b1 / 4) :: b64char (b1 % 4 * 16 + b2 / 16) ::
    b64char (b2 % 16 * 4 + b3 / 64) :: b64char (b3 % 64) :: base64Encode rest

/-- Model of `.replace(/\+/g, "-")`. -/
def replacePlus (c : Char) : Char := if c = '+' then '-' else c

/-- Model of `.replace(/\//g, "_")`. -/
def replaceSlash (c : Char) : Char := if c = '/' then '_' else c

/-- Model of `.replace(/=+$/, "")`: remove the trailing run of `=`. -/
def stripTrailingEq (l : List Char) : List Char :=
  (l.reverse.dropWhile (· == '=')).reverse

/-- `toUrlSafeBase64` (src/index.ts:73-84). -/
def toUrlSafeBase64 (input : String) : String :=
  let data := utf8Bytes input
  let base64 := base64Encode data
  String.mk (stripTrailingEq ((base64.map replacePlus).map replaceSlash))

/-! ### Data model of the collaborators (src/index.ts:7-37) -/

/-- One Apple Podcasts search result (`ApplePodcastResult`). -/
structure ApplePodcastResult where
  collectionId : Nat
  collectionName : String
  feedUrl : String
deriving DecidableEq

/-- The Apple Podcasts search response (`AppleSearchResponse`). -/
structure AppleSearchResponse where
  resultCount : Nat
  results : List ApplePodcastResult
deriving DecidableEq

/-- One RSS feed entry (`RSSItem`). -/
structure RSSItem where
  title : String
  guid : GuidValue
deriving DecidableEq

/-- The `item` field of a parsed RSS channel: absent, a single entry
not wrapped in an array, or an array of entries. -/
inductive ItemField where
  | missing
  | single (it : RSSItem)
  | many (its : List RSSItem)
deriving DecidableEq

/-- A parsed RSS channel (`RSSChannel`). -/
structure RSSChannel where
  title : String
  item : ItemField
deriving DecidableEq

/-- A parsed RSS document (`RSSFeed`); `channel = none` models a
document in which `parsed.rss?.channel` is absent. -/
structure RSSFeedDoc where
  channel : Option RSSChannel
deriving DecidableEq

/-- Outcome of an HTTP fetch: a non-ok response (carrying the status
that the code interpolates into its error message) or an ok response
with a parsed body. -/
inductive FetchResult (α : Type) where
  | failure (status : Nat)
  | success (body : α)
deriving DecidableEq

deriving instance DecidableEq for Except

/-- The errors thrown (`throw new Error(...)`) inside the pipeline. -/
inductive WorkerError where
  | appleSearchError (status : Nat)
  | feedFetchError (status : Nat)
  | invalidRSSStructure
deriving DecidableEq

/-- The `message` carried by each thrown error. -/
def WorkerError.message : WorkerError → String
  | .appleSearchError status => s!"Apple Search API error: {status}"
  | .feedFetchError status => s!"Failed to fetch RSS feed: {status}"
  | .invalidRSSStructure => "Invalid RSS feed structure"

/-! ### Apple Podcasts search (`searchApplePodcasts`, src/index.ts:90-132) -/

/-- `searchApplePodcasts` (src/index.ts:90-132), as a function of the
search response: throws on a non-ok response; returns `null` on zero
results; otherwise first exact normalized match, else first fuzzy
match, else the first result. -/
def searchApplePodcasts (showName : String)
    (resp : FetchResult AppleSearchResponse) :
    Except WorkerError (Option ApplePodcastResult) :=
  match resp with
  | .failure status => .error (.appleSearchError status)
  | .success data =>
    if data.resultCount = 0 ∨ data.results.length = 0 then .ok none
    else
      match data.results.find?
          (fun r => normalizeText r.collectionName == normalizeText showName) with
      | some exactMatch => .ok (some exactMatch)
      | none =>
        match data.results.find? (fun r => fuzzyMatch r.collectionName showName) with
        | some fuzzyMatchResult => .ok (some fuzzyMatchResult)
        | none => .ok data.results.head?

/-! ### RSS feed retrieval (`fetchAndParseRSSFeed`, src/index.ts:138-172) -/

/-- `fetchAndParseRSSFeed` (src/index.ts:138-172), as a function of the
fetch result: throws on a non-ok response; throws when the channel
container is absent; otherwise flattens the `item` field into a list. -/
def fetchAndParseRSSFeed (resp : FetchResult RSSFeedDoc) :
    Except WorkerError (List RSSItem) :=
  match resp with
  | .failure status => .error (.feedFetchError status)
  | .success parsed =>
    match parsed.channel with
    | none => .error .invalidRSSStructure
    | some channel =>
      match channel.item with
      | .missing => .ok []
      | .single it => .ok [it]
      | .many its => .ok its

/-! ### Episode matching (`findEpisode`, src/index.ts:174-190) -/

/-- `findEpisode` (src/index.ts:174-190): first exact normalized match,
else first fuzzy match, else `null`. -/
def findEpisode (episodes : List RSSItem) (episodeTitle : String) : Option RSSItem :=
  match episodes.find?
      (fun ep => normalizeText ep.title == normalizeText episodeTitle) with
  | some exactMatch => some exactMatch
  | none => episodes.find? (fun ep => fuzzyMatch ep.title episodeTitle)

/-! ### The request handler (src/index.ts:212-346)

The handler is modelled after body validation (the core receives a
validated `{showName, episodeTitle}` record); the two network calls it
makes are supplied as an `Env`.  The `try`/`catch` block maps any
thrown error to a 500 "Internal server error" response. -/

/-- The validated request body (`RequestBody`). -/
structure RequestBody where
  showName : String
  episodeTitle : String
deriving DecidableEq

/-- The JSON payload of a worker response: the success shape of
src/index.ts:320-330 or the error shape `{error, message,
availableEpisodes?}`. -/
inductive ResponsePayload where
  | success (podlinkUrl podcastName : String) (appleId : Nat)
      (episodeTitle guid : String)
  | failure (error message : String) (availableEpisodes : Option (List String))
deriving DecidableEq

/-- An HTTP response of the worker: status code plus JSON payload. -/
structure WorkerResponse where
  status : Nat
  payload : ResponsePayload
deriving DecidableEq

/-- The environment of one request: the outcome of the Apple search
fetch and of the feed fetch. -/
structure Env where
  searchResponse : FetchResult AppleSearchResponse
  feedResponse : FetchResult RSSFeedDoc
deriving DecidableEq

/-- The 500 response of the catch-all `catch` block
(src/index.ts:331-344): `{error: "Internal server error", message}`. -/
def internalErrorResponse (e : WorkerError) : WorkerResponse :=
  ⟨500, .failure "Internal server error" e.message none⟩

/-- The 404 response of src/index.ts:266-274. -/
def podcastNotFoundResponse (showName : String) : WorkerResponse :=
  ⟨404, .failure "Podcast not found"
    s!"No podcast found matching \"{showName}\"" none⟩

/-- The 404 response of src/index.ts:276-284. -/
def noFeedUrlResponse (collectionName : String) : WorkerResponse :=
  ⟨404, .failure "No feed URL"
    s!"Podcast \"{collectionName}\" has no RSS feed URL" none⟩

/-- The 404 response of src/index.ts:289-297. -/
def noEpisodesResponse (collectionName : String) : WorkerResponse :=
  ⟨404, .failure "No episodes"
    s!"Podcast \"{collectionName}\" has no episodes" none⟩

/-- The 404 response of src/index.ts:302-311, carrying the first five
episode titles as hints. -/
def episodeNotFoundResponse (episodeTitle collectionName : String)
    (availableEpisodes : List String) : WorkerResponse :=
  ⟨404, .failure "Episode not found"
    s!"No episode found matching \"{episodeTitle}\" in \"{collectionName}\""
    (some availableEpisodes)⟩

/-- The 200 success response of src/index.ts:313-330: extract the GUID,
URL-safe-base64 it, build the pod.link URL, return the payload. -/
def successResponse (podcast : ApplePodcastResult) (episode : RSSItem) : WorkerResponse :=
  let guid := extractGuid episode.guid
  let base64Guid := toUrlSafeBase64 guid
  let collectionId := podcast.collectionId
  let podlinkUrl := s!"https://pod.link/{collectionId}/episode/{base64Guid}"
  ⟨200, .success podlinkUrl podcast.collectionName podcast.collectionId
    episode.title guid⟩

/-- The resolution pipeline of the `fetch` handler (src/index.ts:260-344),
steps 1-5 together with the catch-all `catch` block. -/
def handleResolve (body : RequestBody) (env : Env) : WorkerResponse :=
  match searchApplePodcasts body.showName env.searchResponse with
  | .error e => internalErrorResponse e
  | .ok none => podcastNotFoundResponse body.showName
  | .ok (some podcast) =>
    if podcast.feedUrl = "" then noFeedUrlResponse podcast.collectionName
    else
      match fetchAndParseRSSFeed env.feedResponse with
      | .error e => internalErrorResponse e
      | .ok episodes =>
        if episodes.length = 0 then noEpisodesResponse podcast.collectionName
        else
          match findEpisode episodes body.episodeTitle with
          | none =>
            episodeNotFoundResponse body.episodeTitle podcast.collectionName
              ((episodes.take 5).map (fun ep => ep.title))
          | some episode => successResponse podcast episode

/-- The episode GUID carried by a response, when the response is a
success payload. -/
def successGuid : WorkerResponse → Option String
  | ⟨_, .success _ _ _ _ guid⟩ => some guid
  | _ => none

/-- The podcast name carried by a response, when the response is a
success payload. -/
def payloadShowName : WorkerResponse → Option String
  | ⟨_, .success _ podcastName _ _ _⟩ => some podcastName
  | _ => none

/-- The episode title carried by a response, when the response is a
success payload. -/
def payloadEpisodeTitle : WorkerResponse → Option String
  | ⟨_, .success _ _ _ episodeTitle _⟩ => some episodeTitle
  | _ => none

/-- The `availableEpisodes` hint list carried by a response, when the
response is an error payload that has one. -/
def payloadHints : WorkerResponse → Option (List String)
  | ⟨_, .failure _ _ availableEpisodes⟩ => availableEpisodes
  | _ => none

/-! ### Auxiliary definitions used by the verification -/

/-- A character list in collapsed form: every whitespace character in
it is a plain space, and no two adjacent characters are both
whitespace.  This is the invariant of `collapseWs` output. -/
def collapsedOk : List Char → Bool
  | [] => true
  | [c] => !isJsWhitespace c || c == ' '
  | c :: d :: rest =>
    (!isJsWhitespace c || (c == ' ' && !isJsWhitespace d)) && collapsedOk (d :: rest)

/-- The character substitution as worded by the spec (section 4.6):
`+` to `-` and `/` to `_`, all other characters unchanged. -/
def specUrlSafeSubst (c : Char) : Char :=
  if c = '+' then '-' else if c = '/' then '_' else c

/-- The encoder as worded by the spec (section 4.6): standard base64 of
the identifier's UTF-8 bytes, substituting the two non-URL-safe
alphabet characters, then stripping all trailing `=` padding.  Stated
separately from `toUrlSafeBase64` for the refinement comparison. -/
def specUrlSafeEncode (s : String) : String :=
  String.mk (stripTrailingEq ((base64Encode (utf8Bytes s)).map specUrlSafeSubst))

/-- Characters of the URL-safe token alphabet `[A-Za-z0-9_-]`. -/
def isUrlSafeTokenChar (c : Char) : Bool :=
  c.isAlphanum || c == '_' || c == '-'

/-! ## Verification

Helper lemmas about the text pipeline, followed by one theorem per
specification claim. -/

/-! ### Character-level lemmas -/

theorem toNat_ofNat_valid (n : Nat) (h : n < 55296) : (Char.ofNat n).toNat = n := by
  simp [Char.ofNat, Char.ofNatAux, Char.toNat, Or.inl h, UInt32.toNat, BitVec.toNat_ofNatLt]

theorem toLower_toNat (c : Char) :
    (Char.toLower c).toNat = if 65 ≤ c.toNat ∧ c.toNat ≤ 90 then c.toNat + 32 else c.toNat := by
  show (if c.toNat ≥ 65 ∧ c.toNat ≤ 90 then Char.ofNat (c.toNat + 32) else c).toNat = _
  split <;> rename_i h
  · exact toNat_ofNat_valid _ (by omega)
  · rfl

theorem toLower_eq_self (c : Char) (h : ¬(65 ≤ c.toNat ∧ c.toNat ≤ 90)) :
    Char.toLower c = c := by
  show (if c.toNat ≥ 65 ∧ c.toNat ≤ 90 then Char.ofNat (c.toNat + 32) else c) = c
  rw [if_neg (by omega)]

theorem toLower_toLower (c : Char) : Char.toLower (Char.toLower c) = Char.toLower c := by
  by_cases h : 65 ≤ c.toNat ∧ c.toNat ≤ 90
  · apply toLower_eq_self
    rw [toLower_toNat, if_pos h]
    omega
  · simp [toLower_eq_self c h]

theorem isJsWhitespace_iff (c : Char) : isJsWhitespace c = true ↔
    (c.toNat = 9 ∨ c.toNat = 10 ∨ c.toNat = 11 ∨ c.toNat = 12 ∨ c.toNat = 13 ∨
     c.toNat = 32 ∨ c.toNat = 160 ∨ c.toNat = 5760 ∨
     (8192 ≤ c.toNat ∧ c.toNat ≤ 8202) ∨ c.toNat = 8232 ∨ c.toNat = 8233 ∨
     c.toNat = 8239 ∨ c.toNat = 8287 ∨ c.toNat = 12288 ∨ c.toNat = 65279) := by
  simp [isJsWhitespace]
  tauto

theorem isJsWhitespace_toLower (c : Char) :
    isJsWhitespace (Char.toLower c) = isJsWhitespace c := by
  have h1 := toLower_toNat c
  rw [Bool.eq_iff_iff, isJsWhitespace_iff, isJsWhitespace_iff, h1]
  split <;> omega

/-! ### Lemmas about `collapseWs` -/

theorem collapseWs_eq_nil_iff (l : List Char) : collapseWs l = [] ↔ l = [] := by
  induction l using collapseWs.induct with
  | case1 => simp [collapseWs]
  | case2 c h => simp [collapseWs, h]
  | case3 c h => simp [collapseWs, h]
  | case4 c d rest h1 h2 ih => simp [collapseWs, h1, h2, ih]
  | case5 c d rest h1 h2 ih => simp [collapseWs, h1, h2]
  | case6 c d rest h1 ih => simp [collapseWs, h1]

theorem collapseWs_head_not_ws (d : Char) (t : List Char)
    (h : ¬ isJsWhitespace d = true) : ∃ Y, collapseWs (d :: t) = d :: Y := by
  cases t with
  | nil => exact ⟨[], by simp [collapseWs, h]⟩
  | cons e t' => exact ⟨collapseWs (e :: t'), by simp [collapseWs, h]⟩

theorem collapsedOk_collapseWs (l : List Char) : collapsedOk (collapseWs l) = true := by
  induction l using collapseWs.induct with
  | case1 => simp [collapseWs, collapsedOk]
  | case2 c h => simp [collapseWs, h, collapsedOk]
  | case3 c h => simp [collapseWs, h, collapsedOk]
  | case4 c d rest h1 h2 ih => simpa [collapseWs, h1, h2] using ih
  | case5 c d rest h1 h2 ih =>
    obtain ⟨Y, hY⟩ := collapseWs_head_not_ws d rest h2
    rw [hY] at ih
    simp only [collapseWs, if_pos h1, if_neg h2, hY]
    simp [collapsedOk, h2, ih]
  | case6 c d rest h1 ih =>
    cases hY : collapseWs (d :: rest) with
    | nil => simp [collapseWs, h1, hY, collapsedOk]
    | cons y Y =>
      rw [hY] at ih
      simp only [collapseWs, if_neg h1, hY]
      simp [collapsedOk, h1, ih]

theorem collapseWs_eq_self (l : List Char) (h : collapsedOk l = true) :
    collapseWs l = l := by
  induction l using collapseWs.induct with
  | case1 => rfl
  | case2 c hc =>
    simp only [collapsedOk, Bool.or_eq_true, Bool.not_eq_true', beq_iff_eq] at h
    rcases h with h | h
    · simp [collapseWs, h]
    · subst h; simp [collapseWs]
  | case3 c hc => simp [collapseWs, hc]
  | case4 c d rest h1 h2 ih =>
    exfalso
    simp only [collapsedOk, Bool.and_eq_true, Bool.or_eq_true, Bool.not_eq_true',
      Bool.and_eq_true, beq_iff_eq] at h
    rcases h.1 with h' | ⟨_, h'⟩ <;> simp_all
  | case5 c d rest h1 h2 ih =>
    simp only [collapsedOk, Bool.and_eq_true, Bool.or_eq_true, Bool.not_eq_true',
      Bool.and_eq_true, beq_iff_eq] at h
    rcases h.1 with h' | ⟨hc, _⟩
    · simp_all
    · subst hc
      simp only [collapseWs, if_pos h1, if_neg h2]
      rw [ih h.2]
  | case6 c d rest h1 ih =>
    simp only [collapsedOk, Bool.and_eq_true] at h
    simp only [collapseWs, if_neg h1]
    rw [ih h.2]

theorem collapseWs_collapseWs (l : List Char) :
    collapseWs (collapseWs l) = collapseWs l :=
  collapseWs_eq_self _ (collapsedOk_collapseWs l)

/-! ### Lemmas about `trimJs` -/

theorem head?_dropWhile_eq_some {α : Type} {p : α → Bool} {l : List α} {c : α}
    (h : (l.dropWhile p).head? = some c) : p c = false := by
  have := List.head?_dropWhile_not p l
  rw [h] at this
  exact this

theorem getLast?_dropWhile {α : Type} {p : α → Bool} {m : List α}
    (h : m.dropWhile p ≠ []) : (m.dropWhile p).getLast? = m.getLast? := by
  induction m with
  | nil => simp at h
  | cons a m' ih =>
    by_cases hp : p a
    · rw [List.dropWhile_cons_of_pos hp] at h ⊢
      have hm' : m' ≠ [] := by
        intro he; subst he; simp at h
      rw [ih h, List.getLast?_cons]
      cases hm2 : m'.getLast? with
      | none => exact absurd (List.getLast?_eq_none_iff.mp hm2) hm'
      | some x => rfl
    · rw [List.dropWhile_cons_of_neg hp]

theorem trimJs_head_not_ws {l : List Char} {c : Char}
    (h : (trimJs l).head? = some c) : isJsWhitespace c = false := by
  unfold trimJs at h
  rw [List.head?_reverse] at h
  have hne : (l.dropWhile isJsWhitespace).reverse.dropWhile isJsWhitespace ≠ [] := by
    intro he; rw [he] at h; simp at h
  rw [getLast?_dropWhile hne] at h
  rw [List.getLast?_reverse] at h
  exact head?_dropWhile_eq_some h

theorem trimJs_getLast_not_ws {l : List Char} {c : Char}
    (h : (trimJs l).getLast? = some c) : isJsWhitespace c = false := by
  unfold trimJs at h
  rw [List.getLast?_reverse] at h
  exact head?_dropWhile_eq_some h

theorem trimJs_eq_self {l : List Char}
    (hh : ∀ c, l.head? = some c → isJsWhitespace c = false)
    (hl : ∀ c, l.getLast? = some c → isJsWhitespace c = false) :
    trimJs l = l := by
  unfold trimJs
  have h1 : l.dropWhile isJsWhitespace = l := by
    cases l with
    | nil => rfl
    | cons a l' =>
      exact List.dropWhile_cons_of_neg (by simp [hh a rfl])
  rw [h1]
  have h2 : l.reverse.dropWhile isJsWhitespace = l.reverse := by
    cases hr : l.reverse with
    | nil => simp
    | cons a r' =>
      rw [List.dropWhile_cons_of_neg]
      have : l.getLast? = some a := by
        rw [List.getLast?_eq_head?_reverse, hr]; rfl
      simp [hl a this]
  rw [h2, List.reverse_reverse]

theorem mem_trimJs {l : List Char} {c : Char} (h : c ∈ trimJs l) : c ∈ l := by
  unfold trimJs at h
  rw [List.mem_reverse] at h
  have h2 := List.dropWhile_sublist (l := (l.dropWhile isJsWhitespace).reverse) isJsWhitespace
  have h3 := h2.subset h
  rw [List.mem_reverse] at h3
  exact (List.dropWhile_sublist isJsWhitespace).subset h3

theorem mem_collapseWs {l : List Char} {c : Char} (h : c ∈ collapseWs l) :
    c = ' ' ∨ c ∈ l := by
  induction l using collapseWs.induct with
  | case1 => simp [collapseWs] at h
  | case2 x hx =>
    simp [collapseWs, hx] at h
    exact Or.inl h
  | case3 x hx =>
    simp [collapseWs, hx] at h
    simp [h]
  | case4 x d rest h1 h2 ih =>
    rw [collapseWs, if_pos h1, if_pos h2] at h
    rcases ih h with h' | h'
    · exact Or.inl h'
    · simp [h']
  | case5 x d rest h1 h2 ih =>
    rw [collapseWs, if_pos h1, if_neg h2] at h
    rcases List.mem_cons.mp h with h' | h'
    · exact Or.inl h'
    · rcases ih h' with h'' | h''
      · exact Or.inl h''
      · simp [h'']
  | case6 x d rest h1 ih =>
    rw [collapseWs, if_neg h1] at h
    rcases List.mem_cons.mp h with h' | h'
    · simp [h']
    · rcases ih h' with h'' | h''
      · exact Or.inl h''
      · simp [h'']

theorem collapseWs_getLast? {l : List Char} {c : Char}
    (hc : l.getLast? = some c) (hw : isJsWhitespace c = false) :
    (collapseWs l).getLast? = some c := by
  induction l using collapseWs.induct with
  | case1 => simp at hc
  | case2 x hx =>
    simp at hc
    subst hc
    simp_all
  | case3 x hx =>
    simp at hc
    subst hc
    simp [collapseWs, hx]
  | case4 x d rest h1 h2 ih =>
    rw [collapseWs, if_pos h1, if_pos h2]
    rw [List.getLast?_cons_cons] at hc
    exact ih hc
  | case5 x d rest h1 h2 ih =>
    rw [collapseWs, if_pos h1, if_neg h2]
    rw [List.getLast?_cons_cons] at hc
    have h3 := ih hc
    rw [List.getLast?_cons, h3]; rfl
  | case6 x d rest h1 ih =>
    rw [collapseWs, if_neg h1]
    rw [List.getLast?_cons_cons] at hc
    have h3 := ih hc
    rw [List.getLast?_cons, h3]; rfl

theorem toLower_mem_normalized {m : List Char} {c : Char}
    (h : c ∈ collapseWs (trimJs (m.map Char.toLower))) : Char.toLower c = c := by
  rcases mem_collapseWs h with h' | h'
  · subst h'
    exact toLower_eq_self ' ' (by decide)
  · have h2 := mem_trimJs h'
    rcases List.mem_map.mp h2 with ⟨d, _, hd⟩
    subst hd
    exact toLower_toLower d

/-! ### Claim C7 -/

/-- C7: the normalization function (lowercase, trim, collapse each
whitespace run to one space) is idempotent: for every string `s`,
`normalizeText (normalizeText s) = normalizeText s`. -/
theorem c7_normalizeText_idempotent (s : String) :
    normalizeText (normalizeText s) = normalizeText s := by
  unfold normalizeText
  congr 1
  set m := s.data.map Char.toLower with hm
  show collapseWs (trimJs ((collapseWs (trimJs m)).map Char.toLower)) = _
  set L := collapseWs (trimJs m) with hL
  have hmap : L.map Char.toLower = L := by
    have := fun c hc => toLower_mem_normalized (m := s.data) (c := c) hc
    calc L.map Char.toLower = L.map id := List.map_congr_left (by simpa using this)
    _ = L := List.map_id L
  rw [hmap]
  have htrim : trimJs L = L := by
    apply trimJs_eq_self
    · intro c hc
      cases ht : trimJs m with
      | nil =>
        rw [hL, ht] at hc
        simp [collapseWs] at hc
      | cons d t' =>
        have hd : isJsWhitespace d = false := trimJs_head_not_ws (by rw [ht]; rfl)
        obtain ⟨Y, hY⟩ := collapseWs_head_not_ws d t' (by simp [hd])
        rw [hL, ht, hY] at hc
        simp at hc
        subst hc
        exact hd
    · intro c hc
      cases ht : (trimJs m).getLast? with
      | none =>
        have : trimJs m = [] := List.getLast?_eq_none_iff.mp ht
        rw [hL, this] at hc
        simp [collapseWs] at hc
      | some e =>
        have he : isJsWhitespace e = false := trimJs_getLast_not_ws ht
        have h2 := collapseWs_getLast? ht he
        rw [← hL] at h2
        rw [h2] at hc
        cases hc
        exact he
  rw [htrim]
  exact collapseWs_collapseWs _

/-! ### Claims C6, C10, C3, C2, C8 -/

theorem fuzzyMatch_eq_true_iff (a b : String) :
    fuzzyMatch a b = true ↔
      (normalizeText a = normalizeText b ∨
       (normalizeText b).data <:+: (normalizeText a).data ∨
       (normalizeText a).data <:+: (normalizeText b).data) := by
  simp [fuzzyMatch, jsIncludes, beq_iff_eq, or_assoc]

/-- C6: `fuzzyMatch a b` is true iff the normalized strings are equal,
or the normalization of `b` occurs as a substring of the normalization
of `a`, or vice versa; containment in either direction alone suffices. -/
theorem c6_fuzzyMatch_characterization (a b : String) :
    fuzzyMatch a b = true ↔
      (normalizeText a = normalizeText b ∨
       (normalizeText b).data <:+: (normalizeText a).data ∨
       (normalizeText a).data <:+: (normalizeText b).data) :=
  fuzzyMatch_eq_true_iff a b

/-- C10: the fuzzy-match predicate is symmetric, a guarantee the code
provides even though the spec declines to require it. -/
theorem c10_fuzzyMatch_symm (a b : String) : fuzzyMatch a b = fuzzyMatch b a := by
  rw [Bool.eq_iff_iff, fuzzyMatch_eq_true_iff, fuzzyMatch_eq_true_iff]
  constructor <;> intro h <;> rcases h with h | h | h
  · exact Or.inl h.symm
  · exact Or.inr (Or.inr h)
  · exact Or.inr (Or.inl h)
  · exact Or.inl h.symm
  · exact Or.inr (Or.inr h)
  · exact Or.inr (Or.inl h)

/-- C3: episode resolution returns the first episode whose title is
normalized-equal to the target, else the first whose title
fuzzy-matches it, else `none`; when no episode matches exactly or
fuzzily it never falls back to an arbitrary episode. -/
theorem c3_episode_resolution_no_fallback (episodes : List RSSItem) (episodeTitle : String) :
    (∀ e, episodes.find?
        (fun ep => normalizeText ep.title == normalizeText episodeTitle) = some e →
      findEpisode episodes episodeTitle = some e)
    ∧ (episodes.find?
        (fun ep => normalizeText ep.title == normalizeText episodeTitle) = none →
      findEpisode episodes episodeTitle
        = episodes.find? (fun ep => fuzzyMatch ep.title episodeTitle))
    ∧ ((∀ ep ∈ episodes, ¬(normalizeText ep.title = normalizeText episodeTitle)
          ∧ fuzzyMatch ep.title episodeTitle = false) →
      findEpisode episodes episodeTitle = none) := by
  refine ⟨?_, ?_, ?_⟩
  · intro e he
    simp [findEpisode, he]
  · intro he
    simp [findEpisode, he]
  · intro hall
    have h1 : episodes.find?
        (fun ep => normalizeText ep.title == normalizeText episodeTitle) = none := by
      rw [List.find?_eq_none]
      intro ep hep
      simp [(hall ep hep).1]
    have h2 : episodes.find? (fun ep => fuzzyMatch ep.title episodeTitle) = none := by
      rw [List.find?_eq_none]
      intro ep hep
      simp [(hall ep hep).2]
    simp [findEpisode, h1, h2]

/-- Witness for C3 at the spec's own test vector. -/
theorem c3_witness :
    findEpisode [⟨"Ep1", .str "g1"⟩, ⟨"Ep2", .str "g2"⟩] "Ep3" = none :=
  (c3_episode_resolution_no_fallback [⟨"Ep1", .str "g1"⟩, ⟨"Ep2", .str "g2"⟩] "Ep3").2.2
    (by decide)

/-- C2: for a directory response whose count is consistent with its
result list, show selection on a non-empty list returns the first
normalized-equal candidate, else the first fuzzy-matching candidate,
else the first candidate; on an empty list it returns `none`. -/
theorem c2_show_selection_policy (showName : String) (data : AppleSearchResponse)
    (hcount : data.resultCount = data.results.length) :
    (data.results = [] →
      searchApplePodcasts showName (.success data) = .ok none)
    ∧ (∀ r0 rest, data.results = r0 :: rest →
      searchApplePodcasts showName (.success data) = .ok (some (
        match data.results.find?
            (fun r => normalizeText r.collectionName == normalizeText showName) with
        | some exactMatch => exactMatch
        | none =>
          match data.results.find? (fun r => fuzzyMatch r.collectionName showName) with
          | some fuzzyMatchResult => fuzzyMatchResult
          | none => r0))) := by
  constructor
  · intro he
    simp [searchApplePodcasts, he]
  · intro r0 rest hr
    have hne : ¬(data.resultCount = 0 ∨ data.results.length = 0) := by
      rw [hcount, hr]
      simp
    rw [searchApplePodcasts.eq_def]
    simp only [if_neg hne]
    cases h1 : data.results.find?
        (fun r => normalizeText r.collectionName == normalizeText showName) with
    | some exactMatch => rfl
    | none =>
      cases h2 : data.results.find? (fun r => fuzzyMatch r.collectionName showName) with
      | some fuzzyMatchResult => rfl
      | none => rw [hr]; rfl

/-- Witness for C2 at the spec's own precedence test vector. -/
theorem c2_witness :
    searchApplePodcasts "The Daily"
      (.success ⟨2, [⟨1, "The Daily Show", "u"⟩, ⟨2, "The Daily", "v"⟩]⟩)
      = .ok (some ⟨2, "The Daily", "v"⟩) := by
  have h := (c2_show_selection_policy "The Daily"
      ⟨2, [⟨1, "The Daily Show", "u"⟩, ⟨2, "The Daily", "v"⟩]⟩ (by decide)).2
    ⟨1, "The Daily Show", "u"⟩ [⟨2, "The Daily", "v"⟩] rfl
  rw [h]
  decide

/-- C8: for a retrieved document with a channel container, episode
extraction yields a flat list: a single unwrapped entry becomes a
one-element list, a wrapped list is returned unchanged, and an absent
`item` field yields the empty list as a non-error result. -/
theorem c8_item_flattening (resp : FetchResult RSSFeedDoc) (doc : RSSFeedDoc)
    (channel : RSSChannel) (h1 : resp = .success doc) (h2 : doc.channel = some channel) :
    (∀ it, channel.item = .single it → fetchAndParseRSSFeed resp = .ok [it])
    ∧ (∀ its, channel.item = .many its → fetchAndParseRSSFeed resp = .ok its)
    ∧ (channel.item = .missing → fetchAndParseRSSFeed resp = .ok []) := by
  subst h1
  refine ⟨?_, ?_, ?_⟩ <;> intros <;> simp_all [fetchAndParseRSSFeed]

/-- Witness for C8 at a single-entry feed. -/
theorem c8_witness :
    fetchAndParseRSSFeed (.success ⟨some ⟨"Show", .single ⟨"Ep", .str "g"⟩⟩⟩)
      = .ok [⟨"Ep", .str "g"⟩] :=
  (c8_item_flattening (.success ⟨some ⟨"Show", .single ⟨"Ep", .str "g"⟩⟩⟩)
    ⟨some ⟨"Show", .single ⟨"Ep", .str "g"⟩⟩⟩ ⟨"Show", .single ⟨"Ep", .str "g"⟩⟩
    rfl rfl).1 ⟨"Ep", .str "g"⟩ rfl

/-! ### Claims C9, C1, C4 -/

/-- Helper: a resolved episode is a member of the episode list. -/
theorem findEpisode_mem {episodes : List RSSItem} {t : String} {e : RSSItem}
    (h : findEpisode episodes t = some e) : e ∈ episodes := by
  unfold findEpisode at h
  cases h1 : episodes.find? (fun ep => normalizeText ep.title == normalizeText t) with
  | some x =>
    rw [h1] at h
    cases h
    exact List.mem_of_find?_eq_some h1
  | none =>
    rw [h1] at h
    exact List.mem_of_find?_eq_some h

/-- Helper: reduction of the handler once the show is resolved with a
feed URL and the feed fetch succeeded with a non-empty episode list. -/
theorem handleResolve_resolved (body : RequestBody) (env : Env)
    (podcast : ApplePodcastResult) (episodes : List RSSItem)
    (hs : searchApplePodcasts body.showName env.searchResponse = .ok (some podcast))
    (hurl : podcast.feedUrl ≠ "")
    (hf : fetchAndParseRSSFeed env.feedResponse = .ok episodes)
    (hne : episodes ≠ []) :
    handleResolve body env =
      match findEpisode episodes body.episodeTitle with
      | none => episodeNotFoundResponse body.episodeTitle podcast.collectionName
          ((episodes.take 5).map (fun ep => ep.title))
      | some episode => successResponse podcast episode := by
  unfold handleResolve
  simp only [hs, hf]
  rw [if_neg hurl, if_neg (by simpa using hne)]

/-- C9: outputs are never normalized.  On success the payload carries
the matched candidate's original `collectionName`, the matched
episode's original `title` and its extracted GUID verbatim; on
`EpisodeNotFound` the hints are exactly the titles of the first
`min 5 length` episodes, in feed order, un-normalized. -/
theorem c9_outputs_original_strings (body : RequestBody) (env : Env)
    (podcast : ApplePodcastResult) (episodes : List RSSItem)
    (hs : searchApplePodcasts body.showName env.searchResponse = .ok (some podcast))
    (hurl : podcast.feedUrl ≠ "")
    (hf : fetchAndParseRSSFeed env.feedResponse = .ok episodes)
    (hne : episodes ≠ []) :
    (∀ episode, findEpisode episodes body.episodeTitle = some episode →
       episode ∈ episodes ∧
       handleResolve body env = successResponse podcast episode ∧
       payloadShowName (handleResolve body env) = some podcast.collectionName ∧
       payloadEpisodeTitle (handleResolve body env) = some episode.title ∧
       successGuid (handleResolve body env) = some (extractGuid episode.guid))
    ∧ (findEpisode episodes body.episodeTitle = none →
       handleResolve body env = episodeNotFoundResponse body.episodeTitle
         podcast.collectionName ((episodes.take 5).map (fun ep => ep.title)) ∧
       payloadHints (handleResolve body env)
         = some ((episodes.take 5).map (fun ep => ep.title)) ∧
       ((episodes.take 5).map (fun ep => ep.title)).length = min 5 episodes.length) := by
  have hred := handleResolve_resolved body env podcast episodes hs hurl hf hne
  constructor
  · intro episode hfind
    rw [hfind] at hred
    refine ⟨findEpisode_mem hfind, hred, ?_, ?_, ?_⟩ <;>
      rw [hred] <;> simp [successResponse, payloadShowName, payloadEpisodeTitle, successGuid]
  · intro hfind
    rw [hfind] at hred
    refine ⟨hred, ?_, ?_⟩
    · rw [hred]
      simp [episodeNotFoundResponse, payloadHints]
    · simp [List.length_take]

/-- C1 (amended): when the feed fetch returns a non-success status or
the retrieved document lacks the channel container, the thrown error is
caught by the catch-all handler, which surfaces an "Internal server
error" outcome with HTTP status 500 (not 404 as the spec's table
states). -/
theorem c1_amended_feed_failure_500 (body : RequestBody) (env : Env)
    (podcast : ApplePodcastResult)
    (hs : searchApplePodcasts body.showName env.searchResponse = .ok (some podcast))
    (hurl : podcast.feedUrl ≠ "")
    (hfail : (∃ status, env.feedResponse = .failure status)
      ∨ (∃ doc, env.feedResponse = .success doc ∧ doc.channel = none)) :
    ∃ e, handleResolve body env = internalErrorResponse e
      ∧ (handleResolve body env).status = 500 := by
  have herr : ∃ e, fetchAndParseRSSFeed env.feedResponse = .error e := by
    rcases hfail with ⟨status, hst⟩ | ⟨doc, hdoc, hch⟩
    · exact ⟨.feedFetchError status, by rw [hst]; rfl⟩
    · exact ⟨.invalidRSSStructure, by simp only [fetchAndParseRSSFeed, hdoc, hch]⟩
  obtain ⟨e, he⟩ := herr
  have hmain : handleResolve body env = internalErrorResponse e := by
    unfold handleResolve
    simp only [hs, he]
    rw [if_neg hurl]
  exact ⟨e, hmain, by rw [hmain]; rfl⟩

/-- Counterexample to C1 as stated: with the show resolved and the feed
fetch failing (status 404 from the feed server), the surfaced response
has status 500, not 404. -/
theorem c1_counterexample_feed_failure_404 :
    (handleResolve ⟨"My Show", "Ep"⟩
       ⟨.success ⟨1, [⟨1, "My Show", "https://x/feed"⟩]⟩, .failure 404⟩).status = 500
    ∧ ¬(handleResolve ⟨"My Show", "Ep"⟩
       ⟨.success ⟨1, [⟨1, "My Show", "https://x/feed"⟩]⟩, .failure 404⟩).status = 404 := by
  decide

/-- Witness for the amended C1 at a concrete failing feed fetch. -/
theorem c1_amended_witness :
    ∃ e, handleResolve ⟨"My Show", "Ep"⟩
        ⟨.success ⟨1, [⟨1, "My Show", "https://x/feed"⟩]⟩, .failure 500⟩
        = internalErrorResponse e
      ∧ (handleResolve ⟨"My Show", "Ep"⟩
          ⟨.success ⟨1, [⟨1, "My Show", "https://x/feed"⟩]⟩, .failure 500⟩).status = 500 :=
  c1_amended_feed_failure_500 ⟨"My Show", "Ep"⟩
    ⟨.success ⟨1, [⟨1, "My Show", "https://x/feed"⟩]⟩, .failure 500⟩
    ⟨1, "My Show", "https://x/feed"⟩ (by decide) (by decide) (Or.inl ⟨500, rfl⟩)

/-- Counterexample to C4 as stated: a feed whose matched episode has
the empty string as GUID still produces a 200 success payload carrying
the empty identifier, instead of a feed-data error. -/
theorem c4_counterexample_empty_guid_success :
    successGuid (handleResolve ⟨"My Show", "Ep"⟩
      ⟨.success ⟨1, [⟨1, "My Show", "https://x/feed"⟩]⟩,
       .success ⟨some ⟨"My Show", .single ⟨"Ep", .str ""⟩⟩⟩⟩) = some ""
    ∧ (handleResolve ⟨"My Show", "Ep"⟩
      ⟨.success ⟨1, [⟨1, "My Show", "https://x/feed"⟩]⟩,
       .success ⟨some ⟨"My Show", .single ⟨"Ep", .str ""⟩⟩⟩⟩).status = 200 := by
  decide

/-- C4 (amended): the pipeline performs no emptiness validation of the
extracted identifier; a resolved episode always produces the success
payload with `extractGuid episode.guid` verbatim, whether or not it is
empty. -/
theorem c4_amended_guid_passthrough (body : RequestBody) (env : Env)
    (podcast : ApplePodcastResult) (episodes : List RSSItem) (episode : RSSItem)
    (hs : searchApplePodcasts body.showName env.searchResponse = .ok (some podcast))
    (hurl : podcast.feedUrl ≠ "")
    (hf : fetchAndParseRSSFeed env.feedResponse = .ok episodes)
    (hne : episodes ≠ [])
    (hfind : findEpisode episodes body.episodeTitle = some episode) :
    handleResolve body env = successResponse podcast episode
    ∧ successGuid (handleResolve body env) = some (extractGuid episode.guid)
    ∧ (handleResolve body env).status = 200 := by
  have hred := handleResolve_resolved body env podcast episodes hs hurl hf hne
  rw [hfind] at hred
  refine ⟨hred, ?_, ?_⟩ <;> rw [hred] <;> simp [successResponse, successGuid]

/-- Witness for the amended C4 at the empty-GUID feed. -/
theorem c4_amended_witness :
    handleResolve ⟨"My Show", "Ep"⟩
      ⟨.success ⟨1, [⟨1, "My Show", "https://x/feed"⟩]⟩,
       .success ⟨some ⟨"My Show", .single ⟨"Ep", .str ""⟩⟩⟩⟩
      = successResponse ⟨1, "My Show", "https://x/feed"⟩ ⟨"Ep", .str ""⟩
    ∧ successGuid (handleResolve ⟨"My Show", "Ep"⟩
      ⟨.success ⟨1, [⟨1, "My Show", "https://x/feed"⟩]⟩,
       .success ⟨some ⟨"My Show", .single ⟨"Ep", .str ""⟩⟩⟩⟩)
      = some (extractGuid (.str ""))
    ∧ (handleResolve ⟨"My Show", "Ep"⟩
      ⟨.success ⟨1, [⟨1, "My Show", "https://x/feed"⟩]⟩,
       .success ⟨some ⟨"My Show", .single ⟨"Ep", .str ""⟩⟩⟩⟩).status = 200 :=
  c4_amended_guid_passthrough ⟨"My Show", "Ep"⟩
    ⟨.success ⟨1, [⟨1, "My Show", "https://x/feed"⟩]⟩,
     .success ⟨some ⟨"My Show", .single ⟨"Ep", .str ""⟩⟩⟩⟩
    ⟨1, "My Show", "https://x/feed"⟩ [⟨"Ep", .str ""⟩] ⟨"Ep", .str ""⟩
    (by decide) (by decide) (by decide) (by decide) (by decide)

/-- Witness for C9: a two-episode feed with no match yields the 404
response carrying both original titles as hints. -/
theorem c9_witness :
    handleResolve ⟨"The Daily", "Latest"⟩
      ⟨.success ⟨1, [⟨1234567890, "The Daily", "https://example.test/feed"⟩]⟩,
       .success ⟨some ⟨"The Daily", .many [⟨"Ep A", .str "g1"⟩, ⟨"Ep B", .str "g2"⟩]⟩⟩⟩
      = episodeNotFoundResponse "Latest" "The Daily" ["Ep A", "Ep B"] := by
  have h := (c9_outputs_original_strings ⟨"The Daily", "Latest"⟩
    ⟨.success ⟨1, [⟨1234567890, "The Daily", "https://example.test/feed"⟩]⟩,
     .success ⟨some ⟨"The Daily", .many [⟨"Ep A", .str "g1"⟩, ⟨"Ep B", .str "g2"⟩]⟩⟩⟩
    ⟨1234567890, "The Daily", "https://example.test/feed"⟩
    [⟨"Ep A", .str "g1"⟩, ⟨"Ep B", .str "g2"⟩]
    (by decide) (by decide) (by decide) (by decide)).2 (by decide)
  rw [h.1]
  decide

/-! ### Claim C5 -/

/-- Helper: every sextet maps into the base64 alphabet (out-of-range
indices yield the default `A`, also in the alphabet). -/
theorem b64char_mem (n : Nat) : b64char n ∈ base64Chars := by
  unfold b64char
  rw [List.getD_eq_getElem?_getD]
  rcases h : base64Chars[n]? with _ | x
  · decide
  · simpa using List.getElem?_mem h

/-- Helper: the URL-safe substitution never produces `=` from an
alphabet character. -/
theorem b64_subst_ne_eq : ∀ c ∈ base64Chars, replaceSlash (replacePlus c) ≠ '=' := by
  decide

/-- Helper: the URL-safe substitution maps the base64 alphabet into
`[A-Za-z0-9_-]`. -/
theorem b64_subst_urlsafe :
    ∀ c ∈ base64Chars, isUrlSafeTokenChar (replaceSlash (replacePlus c)) = true := by
  decide

/-- Helper: base64 output is alphabet characters followed by a trailing
run of `=` padding. -/
theorem base64Encode_split (bs : List Nat) :
    ∃ u v, base64Encode bs = u ++ v
      ∧ (∀ c ∈ u, c ∈ base64Chars) ∧ (∀ c ∈ v, c = '=') := by
  induction bs using base64Encode.induct with
  | case1 =>
    exact ⟨[], [], rfl, by simp, by simp⟩
  | case2 b1 =>
    refine ⟨[b64char (b1 / 4), b64char (b1 % 4 * 16)], ['=', '='], rfl, ?_, by simp⟩
    intro c hc
    simp only [List.mem_cons, List.not_mem_nil, or_false] at hc
    rcases hc with h | h <;> subst h <;> exact b64char_mem _
  | case3 b1 b2 =>
    refine ⟨[b64char (b1 / 4), b64char (b1 % 4 * 16 + b2 / 16), b64char (b2 % 16 * 4)],
      ['='], rfl, ?_, by simp⟩
    intro c hc
    simp only [List.mem_cons, List.not_mem_nil, or_false] at hc
    rcases hc with h | h | h <;> subst h <;> exact b64char_mem _
  | case4 b1 b2 b3 rest ih =>
    obtain ⟨u, v, heq, hu, hv⟩ := ih
    refine ⟨b64char (b1 / 4) :: b64char (b1 % 4 * 16 + b2 / 16) ::
      b64char (b2 % 16 * 4 + b3 / 64) :: b64char (b3 % 64) :: u, v, ?_, ?_, hv⟩
    · show _ :: _ :: _ :: _ :: base64Encode rest = _
      rw [heq]
      simp
    · intro c hc
      simp only [List.mem_cons] at hc
      rcases hc with h | h | h | h | h
      · subst h; exact b64char_mem _
      · subst h; exact b64char_mem _
      · subst h; exact b64char_mem _
      · subst h; exact b64char_mem _
      · exact hu _ h

/-- Helper: stripping the trailing `=` run removes exactly the padding
block. -/
theorem stripTrailingEq_append (u v : List Char)
    (hu : ∀ c ∈ u, c ≠ '=') (hv : ∀ c ∈ v, c = '=') :
    stripTrailingEq (u ++ v) = u := by
  unfold stripTrailingEq
  rw [List.reverse_append]
  rw [List.dropWhile_append_of_pos (by intro a ha; simp [hv a (List.mem_reverse.mp ha)])]
  have h2 : u.reverse.dropWhile (· == '=') = u.reverse := by
    cases hr : u.reverse with
    | nil => rfl
    | cons a r' =>
      apply List.dropWhile_cons_of_neg
      have : a ∈ u := by
        rw [← List.mem_reverse, hr]
        exact List.mem_cons_self a r'
      simp [hu a this]
  rw [h2, List.reverse_reverse]

/-- Helper: the two sequential `replace` passes of the code equal the
single substitution worded by the spec. -/
theorem subst_eq_spec (c : Char) : replaceSlash (replacePlus c) = specUrlSafeSubst c := by
  unfold replacePlus replaceSlash specUrlSafeSubst
  by_cases h1 : c = '+'
  · simp [h1]
  · simp only [if_neg h1]

/-- Helper: the characters of `toUrlSafeBase64` output are the
substituted alphabet part of the base64 encoding. -/
theorem toUrlSafeBase64_data (s : String) :
    ∃ u : List Char, (∀ c ∈ u, c ∈ base64Chars)
      ∧ (toUrlSafeBase64 s).data = u.map (fun c => replaceSlash (replacePlus c)) := by
  obtain ⟨u, v, heq, hu, hv⟩ := base64Encode_split (utf8Bytes s)
  refine ⟨u, hu, ?_⟩
  show (stripTrailingEq (((base64Encode (utf8Bytes s)).map replacePlus).map replaceSlash)) = _
  rw [heq, List.map_map, List.map_append]
  apply stripTrailingEq_append
  · intro c hc
    rcases List.mem_map.mp hc with ⟨d, hd, hcd⟩
    subst hcd
    exact b64_subst_ne_eq d (hu d hd)
  · intro c hc
    rcases List.mem_map.mp hc with ⟨d, hd, hcd⟩
    rw [hv d hd] at hcd
    subst hcd
    rfl

/-- C5: `toUrlSafeBase64` equals the spec's encoder (standard base64 of
the UTF-8 bytes with `+` and `/` substituted and trailing `=` padding
stripped); being a function it is deterministic; its output uses only
characters of `[A-Za-z0-9_-]`; and the empty string encodes to the
empty string. -/
theorem c5_encode_urlsafe :
    (∀ s, toUrlSafeBase64 s = specUrlSafeEncode s)
    ∧ (∀ s, (toUrlSafeBase64 s).data.all isUrlSafeTokenChar = true)
    ∧ toUrlSafeBase64 "" = "" := by
  refine ⟨?_, ?_, rfl⟩
  · intro s
    show String.mk
        (stripTrailingEq (((base64Encode (utf8Bytes s)).map replacePlus).map replaceSlash))
      = String.mk (stripTrailingEq ((base64Encode (utf8Bytes s)).map specUrlSafeSubst))
    congr 1
    rw [List.map_map]
    congr 1
    apply List.map_congr_left
    intro c _
    exact subst_eq_spec c
  · intro s
    obtain ⟨u, hu, hdata⟩ := toUrlSafeBase64_data s
    rw [hdata, List.all_eq_true]
    intro c hc
    rcases List.mem_map.mp hc with ⟨d, hd, hcd⟩
    subst hcd
    exact b64_subst_urlsafe d (hu d hd)

end Podlink
